import Mathlib

/-!
Verification of the DMA ring-buffer manager in
`claude-market/superpowers/skills/c-best-practices/examples/dma-example.c`.

The C source is shallowly embedded: each C function that mutates the ring
becomes a pure Lean function on an explicit state record, machine integers
become `Nat` (the C fields are unsigned; the `% size` wrap is written
explicitly exactly where the source writes it), the unbounded interrupt
loops are given a fuel parameter and return `none` when the fuel runs out
(so termination of the C loop is the statement that some fuel returns
`some`), and the hardware's asynchronous status writes are a separate
explicit step.  Statement-level ordering facts (the memory barrier inside
`update_tx_descriptor`, the teardown sequence of `cleanup_dma_device`, and
the allocation/rollback order of `alloc_ring_buffer`) are embedded as
explicit event traces in source statement order.
-/

namespace DmaExample

/-- Descriptor flag `DESC_FLAG_OWNER_HW` (dma-example.c line 33). -/
def DESC_FLAG_OWNER_HW : Nat := 0x80000000

/-- Descriptor flag `DESC_FLAG_OWNER_SW` (dma-example.c line 34). -/
def DESC_FLAG_OWNER_SW : Nat := 0x00000000

/-- Descriptor flag `DESC_FLAG_INTR_ENABLE` (dma-example.c line 35). -/
def DESC_FLAG_INTR_ENABLE : Nat := 0x40000000

/-- Descriptor status bit `DESC_STATUS_DONE` (dma-example.c line 36). -/
def DESC_STATUS_DONE : Nat := 0x00000001

/-- Interrupt status bit `INT_STATUS_TX` (dma-example.c line 39). -/
def INT_STATUS_TX : Nat := 0x00000001

/-- Interrupt status bit `INT_STATUS_RX` (dma-example.c line 40). -/
def INT_STATUS_RX : Nat := 0x00000002

/-- `MAX_FRAME_SIZE` (dma-example.c line 19). -/
def MAX_FRAME_SIZE : Nat := 1518

/-- `RING_SIZE` (dma-example.c line 16).  The model keeps the ring capacity a
parameter `n`; the source instantiates it with this constant. -/
def RING_SIZE : Nat := 256

/-- `struct dma_descriptor` (dma-example.c lines 51-56): four 32-bit fields. -/
structure DmaDescriptor where
  buffer_addr : Nat
  length : Nat
  status : Nat
  control : Nat
deriving Repr, DecidableEq

/-- The all-zero descriptor, used as the out-of-range default for list reads
(the C code never reads out of range on the paths modelled here). -/
def zeroDesc : DmaDescriptor := ⟨0, 0, 0, 0⟩

/-- `struct ring_buffer` (dma-example.c lines 61-79).  `desc` is the
descriptor array, `data_buffers`/`data_addrs` the per-slot buffer arrays,
`size`/`head`/`tail`/`count` the bookkeeping fields, and the three counters
mirror the `atomic_t` statistics.  The spinlock has no state content in a
sequential small-step model and is dropped. -/
structure RingBuffer where
  desc : List DmaDescriptor
  data_buffers : List (List Nat)
  data_addrs : List Nat
  size : Nat
  head : Nat
  tail : Nat
  count : Nat
  initialized : Bool
  total_desc : Nat
  overflow_count : Nat
  underrun_count : Nat
deriving Repr, DecidableEq

/-- The state of `struct pci_device` (dma-example.c lines 84-112) that the
ring operations touch: the two rings, the `started` flag, and the packet /
interrupt statistics. -/
structure PciDevice where
  tx_ring : RingBuffer
  rx_ring : RingBuffer
  started : Bool
  int_enabled : Bool
  tx_packets : Nat
  rx_packets : Nat
  interrupts : Nat
deriving Repr, DecidableEq

/-- `memcpy(buffer, data, len)` on byte lists (dma-example.c line 352). -/
def memcpy (dst src : List Nat) (len : Nat) : List Nat :=
  src.take len ++ dst.drop len

/-- The loop-condition read `le32_to_cpu(desc[i].status) & DESC_STATUS_DONE`
(dma-example.c lines 389 and 406). -/
def doneAt (r : RingBuffer) (i : Nat) : Bool :=
  (r.desc.getD i zeroDesc).status &&& DESC_STATUS_DONE != 0

/-- State effect of `update_tx_descriptor` (dma-example.c lines 285-320):
bounds check, then the four descriptor-field writes, head advance and count
increment; on an out-of-range index only `overflow_count` is bumped.  The
doorbell `writel` and the wait-queue wakeup carry no ring state; their
ordering is modelled by `publish_trace` below. -/
def update_tx_descriptor (ring : RingBuffer) (idx addr len : Nat) : RingBuffer :=
  if idx < ring.size then
    { ring with
        desc := ring.desc.set idx
          { buffer_addr := addr, length := len, status := 0,
            control := DESC_FLAG_OWNER_HW ||| DESC_FLAG_INTR_ENABLE },
        head := (idx + 1) % ring.size,
        count := ring.count + 1 }
  else
    { ring with overflow_count := ring.overflow_count + 1 }

/-- Return value of `transmit_packet`: `0`, `-EINVAL`, `-ENOBUFS`. -/
inductive TransmitResult
  | ok
  | einval
  | enobufs
deriving Repr, DecidableEq

/-- `transmit_packet` (dma-example.c lines 326-359): argument check, full
check (bumping `overflow_count` on failure), then claim of slot `head`, the
payload copy into the slot buffer, and `update_tx_descriptor`. -/
def transmit_packet (dev : PciDevice) (data : List Nat) (len : Nat) :
    TransmitResult × PciDevice :=
  if dev.started = false ∨ MAX_FRAME_SIZE < len then
    (.einval, dev)
  else if dev.tx_ring.size ≤ dev.tx_ring.count then
    (.enobufs,
      { dev with tx_ring :=
          { dev.tx_ring with overflow_count := dev.tx_ring.overflow_count + 1 } })
  else
    let idx := dev.tx_ring.head
    let ring1 :=
      { dev.tx_ring with
          data_buffers := dev.tx_ring.data_buffers.set idx
            (memcpy (dev.tx_ring.data_buffers.getD idx []) data len) }
    let ring2 := update_tx_descriptor ring1 idx (dev.tx_ring.data_addrs.getD idx 0) len
    (.ok, { dev with tx_ring := ring2, tx_packets := dev.tx_packets + 1 })

/-- The TX completion loop of `device_interrupt` (dma-example.c lines
387-396): `while (count > 0)` reclaim the slot at `tail` while its DONE bit
is set, else break.  Fuel-indexed; `none` means the fuel ran out before the
loop exited.  Returns the list of reclaimed slot indices and the final
ring. -/
def tx_loop_fuel : Nat → RingBuffer → Option (List Nat × RingBuffer)
  | 0, _ => none
  | fuel + 1, r =>
    if 0 < r.count then
      if doneAt r r.tail then
        (tx_loop_fuel fuel
            { r with tail := (r.tail + 1) % r.size, count := r.count - 1 }).map
          fun p => (r.tail :: p.1, p.2)
      else some ([], r)
    else some ([], r)

/-- The RX completion loop of `device_interrupt` (dma-example.c lines
404-414): `while (true)` advance `head` past every descriptor whose DONE bit
is set; `tail` and `count` are not touched.  Fuel-indexed; `none` means the
fuel ran out.  Returns the number of packets processed and the final
ring. -/
def rx_loop_fuel : Nat → RingBuffer → Option (Nat × RingBuffer)
  | 0, _ => none
  | fuel + 1, r =>
    if doneAt r r.head then
      (rx_loop_fuel fuel { r with head := (r.head + 1) % r.size }).map
        fun p => (p.1 + 1, p.2)
    else some (0, r)

/-- The `if (status & INT_STATUS_TX)` block of `device_interrupt`
(dma-example.c lines 384-398).  The loop needs at most `count` iterations,
so fuel `count + 1` is exact (proved below). -/
def irq_tx_part (status : Nat) (dev : PciDevice) : Option PciDevice :=
  if status &&& INT_STATUS_TX ≠ 0 then
    (tx_loop_fuel (dev.tx_ring.count + 1) dev.tx_ring).map
      fun p => { dev with tx_ring := p.2 }
  else some dev

/-- The `if (status & INT_STATUS_RX)` block of `device_interrupt`
(dma-example.c lines 401-416), with the packet counter bumped once per
received packet. -/
def irq_rx_part (fuel status : Nat) (dev : PciDevice) : Option PciDevice :=
  if status &&& INT_STATUS_RX ≠ 0 then
    (rx_loop_fuel fuel dev.rx_ring).map
      fun p => { dev with rx_ring := p.2, rx_packets := dev.rx_packets + p.1 }
  else some dev

/-- `device_interrupt` (dma-example.c lines 365-427): a zero status register
is `IRQ_NONE` (`false`) with no state change; otherwise the interrupt
counter is bumped and the TX then the RX completion block runs.  The result
is `none` exactly when the RX loop fails to terminate within `fuel`
iterations (the TX part always terminates). -/
def device_interrupt_fuel (fuel : Nat) (dev : PciDevice) (status : Nat) :
    Option (Bool × PciDevice) :=
  if status = 0 then some (false, dev)
  else
    ((irq_tx_part status { dev with interrupts := dev.interrupts + 1 }).bind
        (irq_rx_part fuel status)).map
      fun d => (true, d)

/-- The ring produced by a successful `alloc_ring_buffer` (dma-example.c
lines 159-175): every descriptor carries its slot's buffer address, the
maximal frame length, a zero status and — as line 163 writes —
`DESC_FLAG_OWNER_HW` in the control field; `head = tail = count = 0` and the
counters are reset. -/
def init_ring (n : Nat) (addrs : List Nat) (bufs : List (List Nat)) : RingBuffer where
  desc := (List.range n).map fun i =>
    { buffer_addr := addrs.getD i 0, length := MAX_FRAME_SIZE, status := 0,
      control := DESC_FLAG_OWNER_HW }
  data_buffers := bufs
  data_addrs := addrs
  size := n
  head := 0
  tail := 0
  count := 0
  initialized := true
  total_desc := n
  overflow_count := 0
  underrun_count := 0

/-- The device state after a successful `init_dma_device` (dma-example.c
lines 432-462): both rings freshly constructed, interrupts enabled, the
device started, all statistics zero. -/
def init_device (n : Nat) (ta ra : List Nat) (tb rb : List (List Nat)) : PciDevice where
  tx_ring := init_ring n ta tb
  rx_ring := init_ring n ra rb
  started := true
  int_enabled := true
  tx_packets := 0
  rx_packets := 0
  interrupts := 0

/-- The hardware's asynchronous write of a descriptor's `status` field (the
only descriptor field the device writes, per the spec's ownership
discipline); all other ring state is untouched. -/
def hw_write_status (r : RingBuffer) (i s : Nat) : RingBuffer :=
  { r with desc := r.desc.set i { r.desc.getD i zeroDesc with status := s } }

/-- One atomic operation on the device state: a `transmit_packet` call with
arbitrary payload, a `device_interrupt` invocation that terminates (with
arbitrary status-register value and RX fuel), or a hardware status write on
either ring. -/
inductive DevStep : PciDevice → PciDevice → Prop
  | transmit (dev : PciDevice) (data : List Nat) (len : Nat) :
      DevStep dev (transmit_packet dev data len).2
  | interrupt (dev : PciDevice) (fuel status : Nat) (handled : Bool)
      (dev2 : PciDevice)
      (h : device_interrupt_fuel fuel dev status = some (handled, dev2)) :
      DevStep dev dev2
  | hw_tx (dev : PciDevice) (i s : Nat) :
      DevStep dev { dev with tx_ring := hw_write_status dev.tx_ring i s }
  | hw_rx (dev : PciDevice) (i s : Nat) :
      DevStep dev { dev with rx_ring := hw_write_status dev.rx_ring i s }

/-- States reachable from a freshly initialized device by any sequence of
transmit / interrupt / hardware-completion operations. -/
def Reachable (n : Nat) (ta ra : List Nat) (tb rb : List (List Nat))
    (dev : PciDevice) : Prop :=
  Relation.ReflTransGen DevStep (init_device n ta ra tb rb) dev

/-- The spec's ring bookkeeping invariant: `0 ≤ count ≤ capacity` (the lower
bound is inherent to `Nat`, matching the C's `unsigned int`) and
`tail + count ≡ head (mod capacity)`. -/
def RingInv (r : RingBuffer) : Prop :=
  r.count ≤ r.size ∧ (r.tail + r.count) % r.size = r.head % r.size

instance (r : RingBuffer) : Decidable (RingInv r) := by
  unfold RingInv; infer_instance

/-- The inductive strengthening of `RingInv` that the TX paths maintain:
`head` and `tail` stay below `size` so the modular equation holds with
`head` unreduced. -/
def RingWF (r : RingBuffer) : Prop :=
  r.head < r.size ∧ r.tail < r.size ∧ r.count ≤ r.size ∧
    (r.tail + r.count) % r.size = r.head

instance (r : RingBuffer) : Decidable (RingWF r) := by
  unfold RingWF; infer_instance

/-- Every descriptor of the ring has the ownership bit set to Hardware. -/
def AllHW (r : RingBuffer) : Prop :=
  ∀ d ∈ r.desc, d.control &&& DESC_FLAG_OWNER_HW = DESC_FLAG_OWNER_HW

instance (r : RingBuffer) : Decidable (AllHW r) := by
  unfold AllHW; infer_instance

/-- The combined inductive invariant of reachable device states. -/
def GoodDev (dev : PciDevice) : Prop :=
  dev.started = true ∧ RingWF dev.tx_ring ∧
    AllHW dev.tx_ring ∧ AllHW dev.rx_ring ∧
    dev.tx_ring.underrun_count = 0 ∧ dev.rx_ring.underrun_count = 0

/-! ### Event trace of the publish path

`update_tx_descriptor` (dma-example.c lines 294-313) in source statement
order.  The four descriptor-field stores, the `wmb()` barrier, the doorbell
`writel`, and the two bookkeeping updates each become one event. -/

/-- One statement of the publish critical section of `update_tx_descriptor`. -/
inductive PubEvent
  | write_buffer_addr
  | write_length
  | write_status
  | write_control_owner_hw
  | write_barrier
  | write_doorbell
  | advance_head
  | inc_count
deriving Repr, DecidableEq, BEq

/-- The statements of `update_tx_descriptor`'s in-bounds branch in program
order: lines 296 (`buffer_addr`), 297 (`length`), 298 (`status`), 299-300
(`control` with `DESC_FLAG_OWNER_HW`), 303 (`MEMORY_BARRIER()`), 306
(doorbell `writel`), 309 (`head` advance), 310 (`count` increment). -/
def publish_trace : List PubEvent :=
  [.write_buffer_addr, .write_length, .write_status, .write_control_owner_hw,
   .write_barrier, .write_doorbell, .advance_head, .inc_count]

/-- Position of an event in `publish_trace`. -/
def posOf (e : PubEvent) : Nat :=
  publish_trace.findIdx fun x => x == e

/-! ### Event trace of device teardown

`cleanup_dma_device` (dma-example.c lines 475-515) in source statement
order, parameterized by the branch conditions of the function. -/

/-- One step of `cleanup_dma_device`.  The four `free_ring_events` per ring
mirror `free_ring_buffer` (lines 200-226: data buffers, then the
`data_addrs` array, then the `data_buffers` array, then the descriptor
memory) followed by the `kfree` of the ring struct. -/
inductive CleanupEvent
  | disable_mac
  | disable_int_enable
  | free_irq_call
  | free_tx_data_buffers
  | free_tx_addr_array
  | free_tx_buf_array
  | free_tx_desc
  | free_tx_struct
  | free_rx_data_buffers
  | free_rx_addr_array
  | free_rx_buf_array
  | free_rx_desc
  | free_rx_struct
deriving Repr, DecidableEq, BEq

/-- Does the event disable a source of device activity (the MAC engine
write, the interrupt-enable write, or `free_irq`)? -/
def isDisableEv : CleanupEvent → Bool
  | .disable_mac => true
  | .disable_int_enable => true
  | .free_irq_call => true
  | _ => false

/-- Does the event free ring memory (data buffers, pointer arrays,
descriptor memory, or a ring struct)? -/
def isRingFreeEv : CleanupEvent → Bool
  | .free_tx_data_buffers => true
  | .free_tx_addr_array => true
  | .free_tx_buf_array => true
  | .free_tx_desc => true
  | .free_tx_struct => true
  | .free_rx_data_buffers => true
  | .free_rx_addr_array => true
  | .free_rx_buf_array => true
  | .free_rx_desc => true
  | .free_rx_struct => true
  | _ => false

/-- The statement sequence of `cleanup_dma_device` (lines 480-504): MAC
disable if `started`, interrupt-enable disable, `free_irq` if an IRQ was
registered, then `free_ring_buffer` + `kfree` for each present ring. -/
def cleanup_trace (started has_irq has_tx has_rx : Bool) : List CleanupEvent :=
  (if started then [.disable_mac] else [])
    ++ [.disable_int_enable]
    ++ (if has_irq then [.free_irq_call] else [])
    ++ (if has_tx then
          [.free_tx_data_buffers, .free_tx_addr_array, .free_tx_buf_array,
           .free_tx_desc, .free_tx_struct] else [])
    ++ (if has_rx then
          [.free_rx_data_buffers, .free_rx_addr_array, .free_rx_buf_array,
           .free_rx_desc, .free_rx_struct] else [])

/-! ### Allocation / rollback trace of `alloc_ring_buffer`

`alloc_ring_buffer` (dma-example.c lines 118-195) performs four kinds of
allocation — the descriptor ring, the two pointer arrays, and one data
buffer per slot — and on any failure unwinds through the `err_free_*`
labels.  The model records the successful allocations and the frees as an
event list, driven by an oracle saying which allocations succeed. -/

/-- A resource allocated by `alloc_ring_buffer`. -/
inductive Resource
  | descRing
  | bufPtrArray
  | addrArray
  | dataBuf (i : Nat)
deriving Repr, DecidableEq, BEq

/-- An allocation-trace event. -/
inductive AllocEvent
  | alloc (r : Resource)
  | free (r : Resource)
deriving Repr, DecidableEq, BEq

/-- Outcome of `alloc_ring_buffer`: whether it returned 0, the
allocation/free events it performed in order, and the final value of the
ring's `initialized` flag (`false` on entry, from the caller's `kzalloc`;
set at line 170 only on the success path). -/
structure AllocOutcome where
  ok : Bool
  events : List AllocEvent
  ringReady : Bool
deriving Repr, DecidableEq

/-- Index of the first data-buffer allocation the oracle fails, if any. -/
def firstDataFail (dataOk : Nat → Bool) (n : Nat) : Option Nat :=
  (List.range n).find? fun i => !dataOk i

/-- `alloc_ring_buffer` (lines 118-195) as an event trace.  `descOk`,
`bufArrOk`, `addrArrOk` and `dataOk i` say which `dma_alloc_coherent` /
`kzalloc` calls succeed.  On failure at data buffer `j` the code frees
buffers `j-1 .. 0` (`while (i-- > 0)`, lines 181-184), then falls through
`err_free_data` → `err_free_buffers` → `err_free_desc`. -/
def alloc_ring_buffer_ev (descOk bufArrOk addrArrOk : Bool)
    (dataOk : Nat → Bool) (n : Nat) : AllocOutcome :=
  if descOk = false then
    { ok := false, events := [], ringReady := false }
  else if bufArrOk = false then
    { ok := false,
      events := [.alloc .descRing, .free .descRing],
      ringReady := false }
  else if addrArrOk = false then
    { ok := false,
      events := [.alloc .descRing, .alloc .bufPtrArray,
                 .free .bufPtrArray, .free .descRing],
      ringReady := false }
  else
    match firstDataFail dataOk n with
    | none =>
        { ok := true,
          events := [.alloc .descRing, .alloc .bufPtrArray, .alloc .addrArray]
            ++ (List.range n).map fun i => .alloc (.dataBuf i),
          ringReady := true }
    | some j =>
        { ok := false,
          events := [.alloc .descRing, .alloc .bufPtrArray, .alloc .addrArray]
            ++ ((List.range j).map fun i => AllocEvent.alloc (.dataBuf i))
            ++ ((List.range j).reverse.map fun i => AllocEvent.free (.dataBuf i))
            ++ [.free .addrArray, .free .bufPtrArray, .free .descRing],
          ringReady := false }

/-- The multiset of resources allocated in a trace. -/
def allocsOf (evs : List AllocEvent) : List Resource :=
  evs.filterMap fun e => match e with
    | .alloc r => some r
    | .free _ => none

/-- The multiset of resources freed in a trace. -/
def freesOf (evs : List AllocEvent) : List Resource :=
  evs.filterMap fun e => match e with
    | .alloc _ => none
    | .free r => some r

/-! ### Concrete states used by the scenario claims and counterexamples -/

/-- A small four-byte payload of byte `b`, standing in for the spec's
payloads P1..P5. -/
def payload (b : Nat) : List Nat := [b, b, b, b]

/-- A freshly initialized device with capacity-4 rings (the spec's
capacity-4 scenario; buffer addresses and contents are irrelevant and left
at defaults). -/
def dev4 : PciDevice := init_device 4 [] [] [] []

/-- Device after transmitting P1. -/
def dev4_t1 : PciDevice := (transmit_packet dev4 (payload 1) 4).2

/-- Device after transmitting P1, P2. -/
def dev4_t2 : PciDevice := (transmit_packet dev4_t1 (payload 2) 4).2

/-- Device after transmitting P1, P2, P3. -/
def dev4_t3 : PciDevice := (transmit_packet dev4_t2 (payload 3) 4).2

/-- Device after transmitting P1, P2, P3, P4: the TX ring is now full. -/
def dev4_t4 : PciDevice := (transmit_packet dev4_t3 (payload 4) 4).2

/-- `dev4_t1` after the hardware marks slot 0 complete: one published slot
whose DONE bit is set. -/
def dev4_done0 : PciDevice :=
  { dev4_t1 with tx_ring := hw_write_status dev4_t1.tx_ring 0 DESC_STATUS_DONE }

/-- A capacity-4 RX ring on which the device has marked slot 0 complete while
head, tail and count are still 0: the fresh RX ring after one hardware
completion. -/
def rx_ring_one_done : RingBuffer :=
  hw_write_status (init_ring 4 [] []) 0 DESC_STATUS_DONE

/-- The RX ring above after the RX completion loop has run: `head` advanced
to 1, `tail` and `count` untouched. -/
def rx_ring_one_done_after : RingBuffer :=
  { rx_ring_one_done with head := 1 }

/-- A capacity-4 RX ring whose four descriptors all carry the DONE bit: the
fresh ring after the device completes every slot. -/
def rx_ring_all_done : RingBuffer :=
  hw_write_status (hw_write_status (hw_write_status (hw_write_status
    (init_ring 4 [] []) 0 DESC_STATUS_DONE) 1 DESC_STATUS_DONE)
    2 DESC_STATUS_DONE) 3 DESC_STATUS_DONE

/-- A TX ring mid-flight for the FIFO witness: capacity 4, two published
slots (0 and 1) both completed by the device, slot 2 published but still
pending would be `count = 3`; here slots 0,1 done, slot 2 pending,
`count = 3`, `tail = 0`, `head = 3`. -/
def c2_ring : RingBuffer :=
  { desc := [⟨0, 4, DESC_STATUS_DONE, 0xC0000000⟩, ⟨0, 4, DESC_STATUS_DONE, 0xC0000000⟩,
             ⟨0, 4, 0, 0xC0000000⟩, ⟨0, MAX_FRAME_SIZE, 0, DESC_FLAG_OWNER_HW⟩],
    data_buffers := [], data_addrs := [], size := 4, head := 3, tail := 0,
    count := 3, initialized := true, total_desc := 4,
    overflow_count := 0, underrun_count := 0 }

/-- A device with two published, not yet completed TX slots: a TX completion
interrupt arriving now finds nothing to reclaim. -/
def c9_dev : PciDevice := dev4_t2

/-- A device whose `started` flag is false (before `init_dma_device` or
after teardown): any transmit fails with `-EINVAL`. -/
def c10_dev : PciDevice := { dev4 with started := false }

/-- Ring `s` is ring `r` after reclaiming `k` slots: `tail` advanced by `k`
modulo the capacity, `count` decreased by `k`, and every other field —
descriptors, buffers, `head`, and all counters — unchanged. -/
def ReclaimedTo (r s : RingBuffer) (k : Nat) : Prop :=
  s.tail = (r.tail + k) % r.size ∧ s.count = r.count - k ∧ s.desc = r.desc ∧
    s.head = r.head ∧ s.size = r.size ∧ s.data_buffers = r.data_buffers ∧
    s.data_addrs = r.data_addrs ∧ s.initialized = r.initialized ∧
    s.total_desc = r.total_desc ∧ s.overflow_count = r.overflow_count ∧
    s.underrun_count = r.underrun_count

instance (r s : RingBuffer) (k : Nat) : Decidable (ReclaimedTo r s k) := by
  unfold ReclaimedTo; infer_instance

/-! ## Helper lemmas -/

theorem doneAt_eq_of_desc {r s : RingBuffer} (h : s.desc = r.desc) (i : Nat) :
    doneAt s i = doneAt r i := by
  simp [doneAt, h]

/-- Full characterization of the TX completion loop: with fuel exceeding
`count` it terminates and reclaims exactly the maximal DONE-prefix starting
at `tail`, in order, stopping at the first pending descriptor. -/
theorem tx_go_spec : ∀ (fuel : Nat) (r : RingBuffer), r.count < fuel →
    0 < r.size → r.tail < r.size →
    ∃ k s, k ≤ r.count ∧
      tx_loop_fuel fuel r =
        some ((List.range k).map (fun i => (r.tail + i) % r.size), s) ∧
      ReclaimedTo r s k ∧
      (∀ i, i < k → doneAt r ((r.tail + i) % r.size) = true) ∧
      (k = r.count ∨ doneAt r ((r.tail + k) % r.size) = false) := by
  intro fuel
  induction fuel with
  | zero => intro r hc; exact absurd hc (Nat.not_lt_zero _)
  | succ fuel ih =>
    intro r hc hsz ht
    by_cases h0 : 0 < r.count
    · by_cases hd : doneAt r r.tail = true
      · obtain ⟨k, s, hk, heq, hrec, hall, hstop⟩ :=
          ih { r with tail := (r.tail + 1) % r.size, count := r.count - 1 }
            (by show r.count - 1 < fuel; omega)
            (by show 0 < r.size; exact hsz)
            (by show (r.tail + 1) % r.size < r.size; exact Nat.mod_lt _ hsz)
        have hk2 : k ≤ r.count - 1 := hk
        refine ⟨k + 1, s, by omega, ?_, ?_, ?_, ?_⟩
        · rw [tx_loop_fuel, if_pos h0, if_pos hd, heq]
          simp only [Option.map_some', Option.some.injEq, Prod.mk.injEq]
          refine ⟨?_, trivial⟩
          rw [List.range_succ_eq_map, List.map_cons, List.map_map]
          refine congrArg₂ List.cons (by simp [Nat.mod_eq_of_lt ht]) ?_
          refine List.map_congr_left fun i _ => ?_
          show ((r.tail + 1) % r.size + i) % r.size = (r.tail + Nat.succ i) % r.size
          rw [Nat.mod_add_mod]
          congr 1
          omega
        · obtain ⟨h1, h2, h3, h4, h5, h6, h7, h8, h9, h10, h11⟩ := hrec
          refine ⟨?_, ?_, h3, h4, h5, h6, h7, h8, h9, h10, h11⟩
          · rw [h1]
            show ((r.tail + 1) % r.size + k) % r.size = (r.tail + (k + 1)) % r.size
            rw [Nat.mod_add_mod]
            congr 1
            omega
          · rw [h2]
            show r.count - 1 - k = r.count - (k + 1)
            omega
        · intro i hi
          match i, hi with
          | 0, _ => simpa [Nat.mod_eq_of_lt ht] using hd
          | i + 1, hi =>
            have h5 : doneAt r (((r.tail + 1) % r.size + i) % r.size) = true :=
              hall i (by omega)
            rw [show (r.tail + (i + 1)) % r.size =
                  ((r.tail + 1) % r.size + i) % r.size from by
                rw [Nat.mod_add_mod]; congr 1; omega]
            exact h5
        · rcases hstop with h | h
          · left
            have h2 : k = r.count - 1 := h
            omega
          · right
            have h2 : doneAt r (((r.tail + 1) % r.size + k) % r.size) = false := h
            rw [show (r.tail + (k + 1)) % r.size =
                  ((r.tail + 1) % r.size + k) % r.size from by
                rw [Nat.mod_add_mod]; congr 1; omega]
            exact h2
      · refine ⟨0, r, Nat.zero_le _, ?_, ?_, by omega, ?_⟩
        · rw [tx_loop_fuel, if_pos h0, if_neg hd]
          simp [Nat.mod_eq_of_lt ht]
        · exact ⟨by simp [Nat.mod_eq_of_lt ht], by simp, rfl, rfl, rfl, rfl,
            rfl, rfl, rfl, rfl, rfl⟩
        · right
          simpa [Nat.mod_eq_of_lt ht] using hd
    · refine ⟨0, r, Nat.zero_le _, ?_, ?_, by omega, by left; omega⟩
      · rw [tx_loop_fuel, if_neg h0]
        simp
      · exact ⟨by simp [Nat.mod_eq_of_lt ht], by simp, rfl, rfl, rfl, rfl,
          rfl, rfl, rfl, rfl, rfl⟩

/-- Whenever the RX completion loop terminates it has changed nothing but
`head`: descriptors, `tail`, `count` and all counters are untouched. -/
theorem rx_shape : ∀ (fuel : Nat) (r : RingBuffer) (p : Nat × RingBuffer),
    rx_loop_fuel fuel r = some p →
    p.2.desc = r.desc ∧ p.2.tail = r.tail ∧ p.2.count = r.count ∧
      p.2.size = r.size ∧ p.2.data_buffers = r.data_buffers ∧
      p.2.data_addrs = r.data_addrs ∧ p.2.initialized = r.initialized ∧
      p.2.total_desc = r.total_desc ∧ p.2.overflow_count = r.overflow_count ∧
      p.2.underrun_count = r.underrun_count := by
  intro fuel
  induction fuel with
  | zero => intro r p h; cases h
  | succ fuel ih =>
    intro r p h
    rw [rx_loop_fuel] at h
    by_cases hd : doneAt r r.head = true
    · rw [if_pos hd] at h
      cases hq : rx_loop_fuel fuel { r with head := (r.head + 1) % r.size } with
      | none => rw [hq] at h; cases h
      | some q =>
        rw [hq, Option.map_some'] at h
        cases h
        exact ih { r with head := (r.head + 1) % r.size } q hq
    · rw [if_neg hd] at h
      cases h
      exact ⟨rfl, rfl, rfl, rfl, rfl, rfl, rfl, rfl, rfl, rfl⟩

/-- On a ring all of whose descriptors carry the DONE bit, the RX completion
loop never exits: no amount of fuel suffices. -/
theorem rx_all_done_none : ∀ (fuel : Nat) (r : RingBuffer), 0 < r.size →
    r.head < r.size → (∀ i, i < r.size → doneAt r i = true) →
    rx_loop_fuel fuel r = none := by
  intro fuel
  induction fuel with
  | zero => intro r _ _ _; rfl
  | succ fuel ih =>
    intro r hsz hh hall
    rw [rx_loop_fuel, if_pos (hall _ hh)]
    rw [ih { r with head := (r.head + 1) % r.size }
      (by show 0 < r.size; exact hsz)
      (by show (r.head + 1) % r.size < r.size; exact Nat.mod_lt _ hsz)
      (fun i hi => hall i hi)]
    rfl

/-- Complete case analysis of `transmit_packet`: the `-EINVAL` path (device
stopped or oversized payload) returns the state unchanged; the `-ENOBUFS`
path (ring full) changes exactly `overflow_count`; the success path copies
the payload and publishes slot `head`. -/
theorem transmit_cases (dev : PciDevice) (data : List Nat) (len : Nat) :
    (¬ (dev.started = true ∧ len ≤ MAX_FRAME_SIZE) ∧
      transmit_packet dev data len = (.einval, dev)) ∨
    (dev.started = true ∧ len ≤ MAX_FRAME_SIZE ∧
      dev.tx_ring.size ≤ dev.tx_ring.count ∧
      transmit_packet dev data len = (.enobufs,
        { dev with tx_ring :=
            { dev.tx_ring with
                overflow_count := dev.tx_ring.overflow_count + 1 } })) ∨
    (dev.started = true ∧ len ≤ MAX_FRAME_SIZE ∧
      dev.tx_ring.count < dev.tx_ring.size ∧
      transmit_packet dev data len = (.ok,
        { dev with
            tx_ring := update_tx_descriptor
              { dev.tx_ring with
                  data_buffers := dev.tx_ring.data_buffers.set dev.tx_ring.head
                    (memcpy (dev.tx_ring.data_buffers.getD dev.tx_ring.head [])
                      data len) }
              dev.tx_ring.head (dev.tx_ring.data_addrs.getD dev.tx_ring.head 0)
              len,
            tx_packets := dev.tx_packets + 1 })) := by
  by_cases h1 : dev.started = false ∨ MAX_FRAME_SIZE < len
  · left
    refine ⟨?_, by rw [transmit_packet, if_pos h1]⟩
    rcases h1 with h | h
    · intro hc; rw [hc.1] at h; cases h
    · intro hc; omega
  · have ha := not_or.mp h1
    have hst : dev.started = true := by
      rcases ha with ⟨ha1, _⟩
      revert ha1
      cases dev.started <;> simp
    have hlen : len ≤ MAX_FRAME_SIZE := Nat.le_of_not_lt ha.2
    by_cases h2 : dev.tx_ring.size ≤ dev.tx_ring.count
    · exact Or.inr (Or.inl ⟨hst, hlen, h2,
        by rw [transmit_packet, if_neg h1, if_pos h2]⟩)
    · exact Or.inr (Or.inr ⟨hst, hlen, Nat.lt_of_not_le h2,
        by rw [transmit_packet, if_neg h1, if_neg h2]⟩)

/-- A hardware status write never changes a descriptor's control field: the
ownership bit stays Hardware on every slot. -/
theorem allHW_hw_write_status {r : RingBuffer} (h : AllHW r) (i s : Nat) :
    AllHW (hw_write_status r i s) := by
  intro d hd
  by_cases hi : i < r.desc.length
  · rcases List.mem_or_eq_of_mem_set hd with hmem | hx
    · exact h d hmem
    · subst hx
      show (r.desc.getD i zeroDesc).control &&& DESC_FLAG_OWNER_HW =
        DESC_FLAG_OWNER_HW
      rw [List.getD_eq_getElem r.desc zeroDesc hi]
      exact h _ (List.getElem_mem hi)
  · have hset : r.desc.set i { r.desc.getD i zeroDesc with status := s } =
        r.desc := List.set_eq_of_length_le (Nat.le_of_not_lt hi)
    have hd2 : d ∈ r.desc := by
      have hd3 : d ∈ r.desc.set i
        { r.desc.getD i zeroDesc with status := s } := hd
      rwa [hset] at hd3
    exact h d hd2

/-- Publishing a slot writes `DESC_FLAG_OWNER_HW | DESC_FLAG_INTR_ENABLE`
into its control field: every slot stays Hardware-owned. -/
theorem allHW_update {r : RingBuffer} (h : AllHW r) (idx addr len : Nat) :
    AllHW (update_tx_descriptor r idx addr len) := by
  unfold update_tx_descriptor
  by_cases hi : idx < r.size
  · rw [if_pos hi]
    intro d hd
    rcases List.mem_or_eq_of_mem_set hd with hmem | hx
    · exact h d hmem
    · subst hx
      show (DESC_FLAG_OWNER_HW ||| DESC_FLAG_INTR_ENABLE) &&& DESC_FLAG_OWNER_HW =
        DESC_FLAG_OWNER_HW
      decide
  · rw [if_neg hi]
    intro d hd
    exact h d hd

/-- Every descriptor of a freshly constructed ring is Hardware-owned
(dma-example.c line 163 writes `DESC_FLAG_OWNER_HW`). -/
theorem allHW_init (n : Nat) (addrs : List Nat) (bufs : List (List Nat)) :
    AllHW (init_ring n addrs bufs) := by
  intro d hd
  obtain ⟨i, _, rfl⟩ := List.mem_map.mp hd
  show DESC_FLAG_OWNER_HW &&& DESC_FLAG_OWNER_HW = DESC_FLAG_OWNER_HW
  decide

/-- A freshly initialized device satisfies the combined invariant. -/
theorem good_init (n : Nat) (ta ra : List Nat) (tb rb : List (List Nat))
    (hn : 0 < n) : GoodDev (init_device n ta ra tb rb) := by
  refine ⟨rfl, ⟨hn, hn, Nat.zero_le _, ?_⟩, allHW_init _ _ _, allHW_init _ _ _,
    rfl, rfl⟩
  show (0 + 0) % n = 0
  simp

/-- `transmit_packet` preserves the combined invariant. -/
theorem good_transmit {dev : PciDevice} (g : GoodDev dev)
    (data : List Nat) (len : Nat) : GoodDev (transmit_packet dev data len).2 := by
  obtain ⟨g1, ⟨w1, w2, w3, w4⟩, g3, g4, g5, g6⟩ := g
  rcases transmit_cases dev data len with ⟨_, heq⟩ | ⟨_, _, _, heq⟩ |
    ⟨_, _, hroom, heq⟩
  · rw [heq]
    exact ⟨g1, ⟨w1, w2, w3, w4⟩, g3, g4, g5, g6⟩
  · rw [heq]
    exact ⟨g1, ⟨w1, w2, w3, w4⟩, fun d hd => g3 d hd, g4, g5, g6⟩
  · rw [heq]
    have hsz : 0 < dev.tx_ring.size := Nat.lt_of_le_of_lt (Nat.zero_le _) w1
    have hupd : update_tx_descriptor
        { dev.tx_ring with
            data_buffers := dev.tx_ring.data_buffers.set dev.tx_ring.head
              (memcpy (dev.tx_ring.data_buffers.getD dev.tx_ring.head [])
                data len) }
        dev.tx_ring.head (dev.tx_ring.data_addrs.getD dev.tx_ring.head 0) len =
        { dev.tx_ring with
            data_buffers := dev.tx_ring.data_buffers.set dev.tx_ring.head
              (memcpy (dev.tx_ring.data_buffers.getD dev.tx_ring.head [])
                data len),
            desc := dev.tx_ring.desc.set dev.tx_ring.head
              { buffer_addr := dev.tx_ring.data_addrs.getD dev.tx_ring.head 0,
                length := len, status := 0,
                control := DESC_FLAG_OWNER_HW ||| DESC_FLAG_INTR_ENABLE },
            head := (dev.tx_ring.head + 1) % dev.tx_ring.size,
            count := dev.tx_ring.count + 1 } := by
      rw [update_tx_descriptor]
      rw [if_pos (show dev.tx_ring.head <
        ({ dev.tx_ring with
            data_buffers := dev.tx_ring.data_buffers.set dev.tx_ring.head
              (memcpy (dev.tx_ring.data_buffers.getD dev.tx_ring.head [])
                data len) } : RingBuffer).size from w1)]
    rw [hupd]
    refine ⟨g1, ⟨?_, ?_, ?_, ?_⟩, ?_, g4, g5, g6⟩
    · show (dev.tx_ring.head + 1) % dev.tx_ring.size < dev.tx_ring.size
      exact Nat.mod_lt _ hsz
    · exact w2
    · show dev.tx_ring.count + 1 ≤ dev.tx_ring.size
      omega
    · show (dev.tx_ring.tail + (dev.tx_ring.count + 1)) % dev.tx_ring.size =
        (dev.tx_ring.head + 1) % dev.tx_ring.size
      rw [← Nat.add_assoc, ← Nat.mod_add_mod, w4]
    · intro d hd
      rcases List.mem_or_eq_of_mem_set hd with hmem | hx
      · exact g3 d hmem
      · subst hx
        show (DESC_FLAG_OWNER_HW ||| DESC_FLAG_INTR_ENABLE) &&&
          DESC_FLAG_OWNER_HW = DESC_FLAG_OWNER_HW
        decide

/-- The TX completion block of the interrupt handler preserves the combined
invariant. -/
theorem good_irq_tx {dev : PciDevice} (g : GoodDev dev) (status : Nat)
    {d2 : PciDevice} (h : irq_tx_part status dev = some d2) : GoodDev d2 := by
  obtain ⟨g1, ⟨w1, w2, w3, w4⟩, g3, g4, g5, g6⟩ := g
  rw [irq_tx_part] at h
  by_cases hbit : status &&& INT_STATUS_TX ≠ 0
  · rw [if_pos hbit] at h
    have hsz : 0 < dev.tx_ring.size := Nat.lt_of_le_of_lt (Nat.zero_le _) w1
    obtain ⟨k, s, hk, heq, hrec, _, _⟩ :=
      tx_go_spec (dev.tx_ring.count + 1) dev.tx_ring (Nat.lt_succ_self _) hsz w2
    rw [heq, Option.map_some'] at h
    cases h
    obtain ⟨h1, h2, h3, h4, h5, _, _, _, _, _, h11⟩ := hrec
    refine ⟨g1, ⟨?_, ?_, ?_, ?_⟩, ?_, g4, ?_, g6⟩
    · show s.head < s.size
      rw [h4, h5]
      exact w1
    · show s.tail < s.size
      rw [h1, h5]
      exact Nat.mod_lt _ hsz
    · show s.count ≤ s.size
      rw [h2, h5]
      omega
    · show (s.tail + s.count) % s.size = s.head
      rw [h1, h2, h4, h5, Nat.mod_add_mod,
        show dev.tx_ring.tail + k + (dev.tx_ring.count - k) =
          dev.tx_ring.tail + dev.tx_ring.count from by omega, w4]
    · intro d hd
      have hd2 : d ∈ dev.tx_ring.desc := h3 ▸ hd
      exact g3 d hd2
    · show s.underrun_count = 0
      rw [h11]
      exact g5
  · rw [if_neg hbit] at h
    cases h
    exact ⟨g1, ⟨w1, w2, w3, w4⟩, g3, g4, g5, g6⟩

/-- The RX completion block of the interrupt handler preserves the combined
invariant. -/
theorem good_irq_rx {dev : PciDevice} (g : GoodDev dev) (fuel status : Nat)
    {d2 : PciDevice} (h : irq_rx_part fuel status dev = some d2) : GoodDev d2 := by
  obtain ⟨g1, ⟨w1, w2, w3, w4⟩, g3, g4, g5, g6⟩ := g
  rw [irq_rx_part] at h
  by_cases hbit : status &&& INT_STATUS_RX ≠ 0
  · rw [if_pos hbit] at h
    cases hq : rx_loop_fuel fuel dev.rx_ring with
    | none => rw [hq] at h; cases h
    | some q =>
      rw [hq, Option.map_some'] at h
      cases h
      obtain ⟨r1, _, _, _, _, _, _, _, _, r10⟩ := rx_shape fuel dev.rx_ring q hq
      refine ⟨g1, ⟨w1, w2, w3, w4⟩, g3, ?_, g5, ?_⟩
      · intro d hd
        have hd2 : d ∈ dev.rx_ring.desc := r1 ▸ hd
        exact g4 d hd2
      · show q.2.underrun_count = 0
        rw [r10]
        exact g6
  · rw [if_neg hbit] at h
    cases h
    exact ⟨g1, ⟨w1, w2, w3, w4⟩, g3, g4, g5, g6⟩

/-- A terminating `device_interrupt` invocation preserves the combined
invariant. -/
theorem good_interrupt {dev : PciDevice} (g : GoodDev dev) (fuel status : Nat)
    {b : Bool} {dev2 : PciDevice}
    (h : device_interrupt_fuel fuel dev status = some (b, dev2)) :
    GoodDev dev2 := by
  rw [device_interrupt_fuel] at h
  by_cases hs : status = 0
  · rw [if_pos hs] at h
    cases h
    exact g
  · rw [if_neg hs] at h
    have g0 : GoodDev { dev with interrupts := dev.interrupts + 1 } := by
      obtain ⟨g1, ⟨w1, w2, w3, w4⟩, g3, g4, g5, g6⟩ := g
      exact ⟨g1, ⟨w1, w2, w3, w4⟩, g3, g4, g5, g6⟩
    cases ha : irq_tx_part status { dev with interrupts := dev.interrupts + 1 } with
    | none => rw [ha] at h; cases h
    | some da =>
      rw [ha, Option.some_bind] at h
      cases hb : irq_rx_part fuel status da with
      | none => rw [hb] at h; cases h
      | some db =>
        rw [hb, Option.map_some'] at h
        cases h
        exact good_irq_rx (good_irq_tx g0 status ha) fuel status hb

/-- A hardware status write preserves the combined invariant (it touches
only descriptor status fields). -/
theorem good_hw_tx {dev : PciDevice} (g : GoodDev dev) (i s : Nat) :
    GoodDev { dev with tx_ring := hw_write_status dev.tx_ring i s } := by
  obtain ⟨g1, ⟨w1, w2, w3, w4⟩, g3, g4, g5, g6⟩ := g
  exact ⟨g1, ⟨w1, w2, w3, w4⟩, allHW_hw_write_status g3 i s, g4, g5, g6⟩

/-- A hardware status write on the RX ring preserves the combined
invariant. -/
theorem good_hw_rx {dev : PciDevice} (g : GoodDev dev) (i s : Nat) :
    GoodDev { dev with rx_ring := hw_write_status dev.rx_ring i s } := by
  obtain ⟨g1, ⟨w1, w2, w3, w4⟩, g3, g4, g5, g6⟩ := g
  exact ⟨g1, ⟨w1, w2, w3, w4⟩, g3, allHW_hw_write_status g4 i s, g5, g6⟩

/-- Every operation preserves the combined invariant. -/
theorem step_good {dev dev2 : PciDevice} (g : GoodDev dev)
    (h : DevStep dev dev2) : GoodDev dev2 := by
  cases h with
  | transmit data len => exact good_transmit g data len
  | interrupt fuel status handled devb hint => exact good_interrupt g fuel status hint
  | hw_tx i s => exact good_hw_tx g i s
  | hw_rx i s => exact good_hw_rx g i s

/-- Every reachable device state satisfies the combined invariant. -/
theorem reachable_good {n : Nat} {ta ra : List Nat} {tb rb : List (List Nat)}
    (hn : 0 < n) {dev : PciDevice} (h : Reachable n ta ra tb rb dev) :
    GoodDev dev := by
  induction h with
  | refl => exact good_init n ta ra tb rb hn
  | tail _ hstep ih => exact step_good ih hstep

/-- Whenever the TX completion loop terminates it has changed nothing but
`tail` and `count`: descriptors, `head`, buffers and all counters are
untouched (no well-formedness assumption needed). -/
theorem tx_shape : ∀ (fuel : Nat) (r : RingBuffer) (p : List Nat × RingBuffer),
    tx_loop_fuel fuel r = some p →
    p.2.desc = r.desc ∧ p.2.head = r.head ∧ p.2.size = r.size ∧
      p.2.data_buffers = r.data_buffers ∧ p.2.data_addrs = r.data_addrs ∧
      p.2.initialized = r.initialized ∧ p.2.total_desc = r.total_desc ∧
      p.2.overflow_count = r.overflow_count ∧
      p.2.underrun_count = r.underrun_count := by
  intro fuel
  induction fuel with
  | zero => intro r p h; cases h
  | succ fuel ih =>
    intro r p h
    rw [tx_loop_fuel] at h
    by_cases h0 : 0 < r.count
    · rw [if_pos h0] at h
      by_cases hd : doneAt r r.tail = true
      · rw [if_pos hd] at h
        cases hq : tx_loop_fuel fuel
          { r with tail := (r.tail + 1) % r.size, count := r.count - 1 } with
        | none => rw [hq] at h; cases h
        | some q =>
          rw [hq, Option.map_some'] at h
          cases h
          exact ih { r with tail := (r.tail + 1) % r.size, count := r.count - 1 } q hq
      · rw [if_neg hd] at h
        cases h
        exact ⟨rfl, rfl, rfl, rfl, rfl, rfl, rfl, rfl, rfl⟩
    · rw [if_neg h0] at h
      cases h
      exact ⟨rfl, rfl, rfl, rfl, rfl, rfl, rfl, rfl, rfl⟩

/-- The TX interrupt block leaves both rings' diagnostic counters untouched,
and does not touch the RX ring at all. -/
theorem irq_tx_counters {dev : PciDevice} (status : Nat) {d2 : PciDevice}
    (h : irq_tx_part status dev = some d2) :
    d2.tx_ring.overflow_count = dev.tx_ring.overflow_count ∧
      d2.tx_ring.underrun_count = dev.tx_ring.underrun_count ∧
      d2.rx_ring = dev.rx_ring := by
  rw [irq_tx_part] at h
  by_cases hbit : status &&& INT_STATUS_TX ≠ 0
  · rw [if_pos hbit] at h
    cases hq : tx_loop_fuel (dev.tx_ring.count + 1) dev.tx_ring with
    | none => rw [hq] at h; cases h
    | some q =>
      rw [hq, Option.map_some'] at h
      cases h
      obtain ⟨_, _, _, _, _, _, _, t8, t9⟩ :=
        tx_shape (dev.tx_ring.count + 1) dev.tx_ring q hq
      exact ⟨t8, t9, rfl⟩
  · rw [if_neg hbit] at h
    cases h
    exact ⟨rfl, rfl, rfl⟩

/-- The RX interrupt block leaves both rings' diagnostic counters untouched,
and does not touch the TX ring at all. -/
theorem irq_rx_counters {dev : PciDevice} (fuel status : Nat) {d2 : PciDevice}
    (h : irq_rx_part fuel status dev = some d2) :
    d2.rx_ring.overflow_count = dev.rx_ring.overflow_count ∧
      d2.rx_ring.underrun_count = dev.rx_ring.underrun_count ∧
      d2.tx_ring = dev.tx_ring := by
  rw [irq_rx_part] at h
  by_cases hbit : status &&& INT_STATUS_RX ≠ 0
  · rw [if_pos hbit] at h
    cases hq : rx_loop_fuel fuel dev.rx_ring with
    | none => rw [hq] at h; cases h
    | some q =>
      rw [hq, Option.map_some'] at h
      cases h
      obtain ⟨_, _, _, _, _, _, _, _, r9, r10⟩ :=
        rx_shape fuel dev.rx_ring q hq
      exact ⟨r9, r10, rfl⟩
  · rw [if_neg hbit] at h
    cases h
    exact ⟨rfl, rfl, rfl⟩

/-- A terminating interrupt invocation never changes `overflow_count` or
`underrun_count` on either ring. -/
theorem irq_counters {dev : PciDevice} (fuel status : Nat) {b : Bool}
    {d2 : PciDevice} (h : device_interrupt_fuel fuel dev status = some (b, d2)) :
    d2.tx_ring.overflow_count = dev.tx_ring.overflow_count ∧
      d2.rx_ring.overflow_count = dev.rx_ring.overflow_count ∧
      d2.tx_ring.underrun_count = dev.tx_ring.underrun_count ∧
      d2.rx_ring.underrun_count = dev.rx_ring.underrun_count := by
  rw [device_interrupt_fuel] at h
  by_cases hs : status = 0
  · rw [if_pos hs] at h
    cases h
    exact ⟨rfl, rfl, rfl, rfl⟩
  · rw [if_neg hs] at h
    cases ha : irq_tx_part status { dev with interrupts := dev.interrupts + 1 } with
    | none => rw [ha] at h; cases h
    | some da =>
      rw [ha, Option.some_bind] at h
      cases hb : irq_rx_part fuel status da with
      | none => rw [hb] at h; cases h
      | some db =>
        rw [hb, Option.map_some'] at h
        cases h
        obtain ⟨a1, a2, a3⟩ := irq_tx_counters status ha
        obtain ⟨b1, b2, b3⟩ := irq_rx_counters fuel status hb
        refine ⟨?_, ?_, ?_, ?_⟩
        · rw [b3, a1]
        · rw [b1, a3]
        · rw [b3, a2]
        · rw [b2, a3]

/-- On an in-range publish, `update_tx_descriptor` leaves `overflow_count`
unchanged. -/
theorem update_overflow_of_lt {r : RingBuffer} {idx : Nat} (h : idx < r.size)
    (addr len : Nat) :
    (update_tx_descriptor r idx addr len).overflow_count = r.overflow_count := by
  rw [update_tx_descriptor, if_pos h]

/-- `transmit_packet` bumps `overflow_count` exactly on the `-ENOBUFS`
result (given `head` in range, which holds in every reachable state). -/
theorem transmit_overflow (dev : PciDevice) (data : List Nat) (len : Nat)
    (hh : dev.tx_ring.head < dev.tx_ring.size) :
    (transmit_packet dev data len).2.tx_ring.overflow_count =
      if (transmit_packet dev data len).1 = TransmitResult.enobufs
      then dev.tx_ring.overflow_count + 1
      else dev.tx_ring.overflow_count := by
  rcases transmit_cases dev data len with ⟨_, heq⟩ | ⟨_, _, _, heq⟩ |
    ⟨_, _, _, heq⟩ <;> rw [heq]
  · rw [if_neg (fun habs => by cases habs)]
  · rw [if_pos rfl]
  · rw [if_neg (fun habs => by cases habs)]
    apply update_overflow_of_lt
    exact hh

/-! ## Claim theorems -/

/-- Claim C1, amended: starting from a freshly constructed ring
(`head = tail = count = 0`), every sequence of claim/publish/reclaim
operations — the producer path `transmit_packet`/`update_tx_descriptor`,
the interrupt handler's TX completion loop, and arbitrary hardware status
writes — keeps the TX ring's bookkeeping invariant `0 ≤ count ≤ capacity`
and `tail + count ≡ head (mod capacity)`.  The RX completion loop of
`device_interrupt`, however, does not preserve the invariant on the RX ring
(it advances `head` without touching `tail` or `count`); see the
counterexample theorem. -/
theorem c1_tx_ring_invariant (n : Nat) (ta ra : List Nat)
    (tb rb : List (List Nat)) (dev : PciDevice) (hn : 0 < n)
    (h : Reachable n ta ra tb rb dev) : RingInv dev.tx_ring := by
  obtain ⟨_, ⟨w1, _, w3, w4⟩, _, _, _, _⟩ := reachable_good hn h
  exact ⟨w3, by rw [w4, Nat.mod_eq_of_lt w1]⟩

/-- Witness for C1 at a concrete input: the freshly constructed capacity-4
device is reachable by the empty operation sequence and its TX ring
satisfies the invariant. -/
theorem c1_tx_ring_invariant_witness : RingInv dev4.tx_ring :=
  c1_tx_ring_invariant 4 [] [] [] [] dev4 (by decide) Relation.ReflTransGen.refl

/-- Counterexample for C1 as stated: the RX completion loop does not
preserve the invariant.  `rx_ring_one_done` is the freshly constructed
capacity-4 RX ring after the device completes slot 0; it satisfies the
invariant; the RX loop terminates on it after one packet, yielding
`rx_ring_one_done_after` (`head = 1`, `tail = count = 0`), which violates
`tail + count ≡ head (mod capacity)`. -/
theorem c1_rx_loop_breaks_invariant :
    RingInv rx_ring_one_done ∧
      rx_loop_fuel 8 rx_ring_one_done = some (1, rx_ring_one_done_after) ∧
      ¬ RingInv rx_ring_one_done_after := by
  decide

/-- Claim C2: reclaim is FIFO and exact.  For every ring state (with the
bookkeeping fields in range), the TX completion processing terminates and
reclaims exactly the slots `tail, tail+1, …, tail+k-1 (mod capacity)` for
some `k ≤ count`, each of which has its DONE bit set; it stops either
because `count` slots were reclaimed or at the first descriptor whose DONE
bit is clear, advancing `tail` by `k` and decreasing `count` by `k` while
changing nothing else — it never reclaims a later completed slot past a
pending one. -/
theorem c2_reclaim_fifo (r : RingBuffer) (hsz : 0 < r.size)
    (ht : r.tail < r.size) :
    ∃ k s, k ≤ r.count ∧
      tx_loop_fuel (r.count + 1) r =
        some ((List.range k).map (fun i => (r.tail + i) % r.size), s) ∧
      ReclaimedTo r s k ∧
      (∀ i, i < k → doneAt r ((r.tail + i) % r.size) = true) ∧
      (k = r.count ∨ doneAt r ((r.tail + k) % r.size) = false) :=
  tx_go_spec (r.count + 1) r (Nat.lt_succ_self _) hsz ht

/-- Witness for C2 at a concrete input: capacity-4 ring with three published
slots starting at `tail = 0`, of which slots 0 and 1 are completed and slot
2 is pending. -/
theorem c2_reclaim_fifo_witness :
    0 < c2_ring.size ∧ c2_ring.tail < c2_ring.size ∧
      (∃ k s, k ≤ c2_ring.count ∧
        tx_loop_fuel (c2_ring.count + 1) c2_ring =
          some ((List.range k).map (fun i => (c2_ring.tail + i) % c2_ring.size),
            s) ∧
        ReclaimedTo c2_ring s k ∧
        (∀ i, i < k → doneAt c2_ring ((c2_ring.tail + i) % c2_ring.size) = true) ∧
        (k = c2_ring.count ∨
          doneAt c2_ring ((c2_ring.tail + k) % c2_ring.size) = false)) :=
  ⟨by decide, by decide, c2_reclaim_fifo c2_ring (by decide) (by decide)⟩

/-- Claim C3, amended: the ownership bit is written only at ring
construction and by publish, and both writes set it to Hardware; the
reclaim paths never touch the control field.  Hence in every reachable
device state every descriptor of both rings carries the Hardware ownership
bit — it is never observed Software-owned and never returned to
Software. -/
theorem c3_ownership_always_hardware (n : Nat) (ta ra : List Nat)
    (tb rb : List (List Nat)) (dev : PciDevice) (hn : 0 < n)
    (h : Reachable n ta ra tb rb dev) :
    AllHW dev.tx_ring ∧ AllHW dev.rx_ring := by
  obtain ⟨_, _, g3, g4, _, _⟩ := reachable_good hn h
  exact ⟨g3, g4⟩

/-- Witness for C3 at a concrete input: the freshly constructed capacity-4
device. -/
theorem c3_ownership_always_hardware_witness :
    AllHW dev4.tx_ring ∧ AllHW dev4.rx_ring :=
  c3_ownership_always_hardware 4 [] [] [] [] dev4 (by decide)
    Relation.ReflTransGen.refl

/-- Counterexample for C3 as stated: (1) a freshly constructed ring's free
slots are Hardware-owned, not Software-owned — line 163 of the source
writes `DESC_FLAG_OWNER_HW` into every descriptor at construction; (2)
reclaiming a completed slot does not return its ownership bit to Software —
after publishing slot 0 (`dev4_t1`), a hardware completion of that slot
(`dev4_done0`) and a TX completion interrupt that reclaims it (`tail`
advances to 1, `count` returns to 0), the slot's ownership bit still reads
Hardware. -/
theorem c3_ownership_counterexample :
    (dev4.tx_ring.desc.getD 0 zeroDesc).control &&& DESC_FLAG_OWNER_HW =
      DESC_FLAG_OWNER_HW ∧
      (device_interrupt_fuel 1 dev4_done0 INT_STATUS_TX).map
          (fun p => ((p.2.tx_ring.desc.getD 0 zeroDesc).control &&&
            DESC_FLAG_OWNER_HW, p.2.tx_ring.tail, p.2.tx_ring.count)) =
        some (DESC_FLAG_OWNER_HW, 1, 0) := by
  decide

/-- Claim C5, code defect: the RX completion loop of `device_interrupt`
need not terminate.  On `rx_ring_all_done` — the capacity-4 RX ring on
which the device has set every descriptor's DONE bit — the `while (true)`
loop of lines 404-414 never exits: it never clears a DONE bit and `head`
wraps modulo the capacity, so no fuel bound makes the loop finish.  (The TX
completion loop does terminate for every state: `c2_reclaim_fifo` exhibits
its result at fuel `count + 1`.) -/
theorem c5_rx_loop_diverges (fuel : Nat) :
    rx_loop_fuel fuel rx_ring_all_done = none :=
  rx_all_done_none fuel rx_ring_all_done (by decide) (by decide)
    (by decide)

/-- Claim C9, amended: `underrun_count` is set to zero at ring construction
and never incremented afterwards: no operation — transmit, interrupt
processing, hardware completion — modifies it, so it is zero (in
particular, trivially monotone) in every reachable state and changes only
at ring re-construction. -/
theorem c9_underrun_never_incremented (n : Nat) (ta ra : List Nat)
    (tb rb : List (List Nat)) (dev : PciDevice) (hn : 0 < n)
    (h : Reachable n ta ra tb rb dev) :
    dev.tx_ring.underrun_count = 0 ∧ dev.rx_ring.underrun_count = 0 := by
  obtain ⟨_, _, _, _, g5, g6⟩ := reachable_good hn h
  exact ⟨g5, g6⟩

/-- Witness for C9 at a concrete input: the freshly constructed capacity-4
device. -/
theorem c9_underrun_never_incremented_witness :
    dev4.tx_ring.underrun_count = 0 ∧ dev4.rx_ring.underrun_count = 0 :=
  c9_underrun_never_incremented 4 [] [] [] [] dev4 (by decide)
    Relation.ReflTransGen.refl

/-- Counterexample for C9 as stated: `c9_dev` has two published TX slots,
neither completed; a TX completion interrupt (`INT_STATUS_TX` asserted)
reclaims nothing, yet `underrun_count` stays 0 instead of being incremented
to 1 — the source never increments it anywhere (it appears only in the
struct declaration, line 78, and the reset at line 174). -/
theorem c9_no_underrun_increment :
    (device_interrupt_fuel 1 c9_dev INT_STATUS_TX).map
        (fun p => p.2.tx_ring.underrun_count) = some 0 ∧
      (device_interrupt_fuel 1 c9_dev INT_STATUS_TX).map
          (fun p => p.2.tx_ring.underrun_count) ≠
        some (c9_dev.tx_ring.underrun_count + 1) := by
  decide

/-- Counterexample for C4 as stated: in `update_tx_descriptor` the control
write that sets the ownership bit to Hardware (lines 299-300) comes
strictly before the `MEMORY_BARRIER()` (line 303): the barrier is not
ordered before the ownership-bit write. -/
theorem c4_barrier_after_control :
    posOf .write_control_owner_hw < posOf .write_barrier := by
  decide

/-- Claim C4, amended: in the publish path the write memory barrier is
ordered after all four descriptor-field writes — the payload fields
(buffer address, length, status) and the control word carrying the
ownership bit — and before the doorbell write to `TX_RING_PTR` that
notifies the device; only after the doorbell does publish advance `head` by
one (mod capacity) and increment `count`. -/
theorem c4_barrier_order :
    posOf .write_buffer_addr < posOf .write_control_owner_hw ∧
      posOf .write_length < posOf .write_control_owner_hw ∧
      posOf .write_status < posOf .write_control_owner_hw ∧
      posOf .write_control_owner_hw < posOf .write_barrier ∧
      posOf .write_barrier < posOf .write_doorbell ∧
      posOf .write_doorbell < posOf .advance_head ∧
      posOf .advance_head < posOf .inc_count := by
  decide

/-- Claim C6: `overflow_count` is incremented exactly when a transmit finds
the ring full.  Part 1: for every device whose `head` is in range (true of
every reachable state, by `c1_tx_ring_invariant`'s invariant), a
`transmit_packet` call bumps `overflow_count` iff it returns `-ENOBUFS`,
which happens iff the device is started, the length is admissible and
`count ≥ capacity`.  Part 2: interrupt processing never changes
`overflow_count`.  Part 3: the spec's scenario — on a started capacity-4
device, four sequential transmits of P1..P4 succeed and a fifth before any
completion returns `-ENOBUFS` (backpressure) leaving `overflow_count = 1`. -/
theorem c6_overflow_exactly_on_full :
    (∀ (dev : PciDevice) (data : List Nat) (len : Nat),
      dev.tx_ring.head < dev.tx_ring.size →
      (((transmit_packet dev data len).2.tx_ring.overflow_count =
          dev.tx_ring.overflow_count + 1) ↔
        (transmit_packet dev data len).1 = .enobufs) ∧
      ((transmit_packet dev data len).1 = .enobufs ↔
        (dev.started = true ∧ len ≤ MAX_FRAME_SIZE ∧
          dev.tx_ring.size ≤ dev.tx_ring.count))) ∧
    (∀ (fuel : Nat) (dev : PciDevice) (status : Nat) (b : Bool)
      (d2 : PciDevice),
      device_interrupt_fuel fuel dev status = some (b, d2) →
      d2.tx_ring.overflow_count = dev.tx_ring.overflow_count ∧
        d2.rx_ring.overflow_count = dev.rx_ring.overflow_count) ∧
    ((transmit_packet dev4 (payload 1) 4).1 = .ok ∧
      (transmit_packet dev4_t1 (payload 2) 4).1 = .ok ∧
      (transmit_packet dev4_t2 (payload 3) 4).1 = .ok ∧
      (transmit_packet dev4_t3 (payload 4) 4).1 = .ok ∧
      dev4_t4.tx_ring.overflow_count = 0 ∧
      (transmit_packet dev4_t4 (payload 5) 4).1 = .enobufs ∧
      (transmit_packet dev4_t4 (payload 5) 4).2.tx_ring.overflow_count = 1) := by
  refine ⟨?_, ?_, by decide⟩
  · intro dev data len hh
    have hov := transmit_overflow dev data len hh
    constructor
    · constructor
      · intro habs
        by_cases hres : (transmit_packet dev data len).1 = .enobufs
        · exact hres
        · rw [if_neg hres] at hov
          rw [hov] at habs
          exact absurd habs (by omega)
      · intro hres
        rw [if_pos hres] at hov
        exact hov
    · rcases transmit_cases dev data len with ⟨hno, heq⟩ |
        ⟨hst, hlen, hfull, heq⟩ | ⟨hst, hlen, hroom, heq⟩
      · constructor
        · intro habs
          rw [heq] at habs
          cases habs
        · intro hc
          exact absurd ⟨hc.1, hc.2.1⟩ hno
      · constructor
        · intro _
          exact ⟨hst, hlen, hfull⟩
        · intro _
          rw [heq]
      · constructor
        · intro habs
          rw [heq] at habs
          cases habs
        · intro hc
          exact absurd hc.2.2 (by omega)
  · intro fuel dev status b d2 h
    obtain ⟨h1, h2, _, _⟩ := irq_counters fuel status h
    exact ⟨h1, h2⟩

/-- Witness for C6's general part at a concrete input: the full capacity-4
device `dev4_t4`. -/
theorem c6_overflow_exactly_on_full_witness :
    (((transmit_packet dev4_t4 (payload 5) 4).2.tx_ring.overflow_count =
        dev4_t4.tx_ring.overflow_count + 1) ↔
      (transmit_packet dev4_t4 (payload 5) 4).1 = .enobufs) ∧
      ((transmit_packet dev4_t4 (payload 5) 4).1 = .enobufs ↔
        (dev4_t4.started = true ∧ 4 ≤ MAX_FRAME_SIZE ∧
          dev4_t4.tx_ring.size ≤ dev4_t4.tx_ring.count)) :=
  c6_overflow_exactly_on_full.1 dev4_t4 (payload 5) 4 (by decide)

/-- Claim C8: during `cleanup_dma_device`, for every combination of the
function's branch conditions (device started, IRQ registered, TX/RX ring
present), every disabling step — the MAC-control disable write, the
interrupt-enable disable write, and `free_irq` — occurs before the first
free of ring memory: filtering the disable events out of the whole teardown
trace gives the same list as filtering them out of the prefix that precedes
the first ring-free event. -/
theorem c8_teardown_order (started has_irq has_tx has_rx : Bool) :
    (cleanup_trace started has_irq has_tx has_rx).filter isDisableEv =
      ((cleanup_trace started has_irq has_tx has_rx).takeWhile
        (fun e => !isRingFreeEv e)).filter isDisableEv := by
  cases started <;> cases has_irq <;> cases has_tx <;> cases has_rx <;> decide

/-- Claim C10: whenever `transmit_packet` fails, the ring state is intact.
On the `-EINVAL` path (device not started or oversized payload — exactly
the stated condition) the entire device state is returned unchanged; on the
`-ENOBUFS` (ring full) path the returned state differs from the input in
exactly one field: `overflow_count` is one larger — `head`, `tail`,
`count`, the descriptor array and the data buffers are all untouched. -/
theorem c10_transmit_error_frame (dev : PciDevice) (data : List Nat)
    (len : Nat) :
    ((transmit_packet dev data len).1 = .einval →
      (transmit_packet dev data len).2 = dev) ∧
    ((transmit_packet dev data len).1 = .enobufs →
      (transmit_packet dev data len).2 =
        { dev with tx_ring :=
            { dev.tx_ring with
                overflow_count := dev.tx_ring.overflow_count + 1 } }) ∧
    ((transmit_packet dev data len).1 = .einval ↔
      ¬ (dev.started = true ∧ len ≤ MAX_FRAME_SIZE)) := by
  rcases transmit_cases dev data len with ⟨hno, heq⟩ | ⟨hst, hlen, _, heq⟩ |
    ⟨hst, hlen, _, heq⟩ <;> rw [heq]
  · refine ⟨fun _ => rfl, fun habs => ?_, fun _ => hno, fun _ => rfl⟩
    cases habs
  · refine ⟨fun habs => ?_, fun _ => rfl, fun habs => ?_,
      fun hc => absurd ⟨hst, hlen⟩ hc⟩
    · cases habs
    · cases habs
  · refine ⟨fun habs => ?_, fun habs => ?_, fun habs => ?_,
      fun hc => absurd ⟨hst, hlen⟩ hc⟩
    · cases habs
    · cases habs
    · cases habs

/-- Witness for C10 at a concrete input: a stopped device; the transmit
fails with `-EINVAL` and the state is unchanged. -/
theorem c10_transmit_error_frame_witness :
    (transmit_packet c10_dev (payload 9) 4).1 = .einval ∧
      (transmit_packet c10_dev (payload 9) 4).2 = c10_dev :=
  ⟨by decide, (c10_transmit_error_frame c10_dev (payload 9) 4).1 (by decide)⟩

theorem allocsOf_append (a b : List AllocEvent) :
    allocsOf (a ++ b) = allocsOf a ++ allocsOf b :=
  List.filterMap_append _ _ _

theorem freesOf_append (a b : List AllocEvent) :
    freesOf (a ++ b) = freesOf a ++ freesOf b :=
  List.filterMap_append _ _ _

theorem allocsOf_alloc_map (l : List Nat) :
    allocsOf (l.map fun i => AllocEvent.alloc (.dataBuf i)) =
      l.map Resource.dataBuf := by
  induction l with
  | nil => rfl
  | cons a l ih =>
    show Resource.dataBuf a ::
        allocsOf (l.map fun i => AllocEvent.alloc (.dataBuf i)) =
      Resource.dataBuf a :: l.map Resource.dataBuf
    rw [ih]

theorem allocsOf_free_map (l : List Nat) :
    allocsOf (l.map fun i => AllocEvent.free (.dataBuf i)) = [] := by
  induction l with
  | nil => rfl
  | cons a l ih =>
    show allocsOf (l.map fun i => AllocEvent.free (.dataBuf i)) = []
    exact ih

theorem freesOf_alloc_map (l : List Nat) :
    freesOf (l.map fun i => AllocEvent.alloc (.dataBuf i)) = [] := by
  induction l with
  | nil => rfl
  | cons a l ih =>
    show freesOf (l.map fun i => AllocEvent.alloc (.dataBuf i)) = []
    exact ih

theorem freesOf_free_map (l : List Nat) :
    freesOf (l.map fun i => AllocEvent.free (.dataBuf i)) =
      l.map Resource.dataBuf := by
  induction l with
  | nil => rfl
  | cons a l ih =>
    show Resource.dataBuf a ::
        freesOf (l.map fun i => AllocEvent.free (.dataBuf i)) =
      Resource.dataBuf a :: l.map Resource.dataBuf
    rw [ih]

/-- Claim C7: whenever any allocation step of `alloc_ring_buffer` fails —
the descriptor ring, either pointer array, or any per-slot data buffer —
the function frees exactly the resources it allocated earlier in that call
(the freed multiset is a permutation of the allocated one; in particular
every data buffer allocated before the failing one is freed) before
returning, and the ring is never exposed as usable: its `initialized` flag
is still false. -/
theorem c7_alloc_rollback (descOk bufArrOk addrArrOk : Bool)
    (dataOk : Nat → Bool) (n : Nat)
    (hfail : (alloc_ring_buffer_ev descOk bufArrOk addrArrOk dataOk n).ok =
      false) :
    (allocsOf
        (alloc_ring_buffer_ev descOk bufArrOk addrArrOk dataOk n).events).Perm
      (freesOf
        (alloc_ring_buffer_ev descOk bufArrOk addrArrOk dataOk n).events) ∧
    (alloc_ring_buffer_ev descOk bufArrOk addrArrOk dataOk n).ringReady =
      false := by
  by_cases h1 : descOk = false
  · rw [alloc_ring_buffer_ev, if_pos h1]
    exact ⟨List.Perm.refl _, rfl⟩
  · by_cases h2 : bufArrOk = false
    · rw [alloc_ring_buffer_ev, if_neg h1, if_pos h2]
      exact ⟨by decide, rfl⟩
    · by_cases h3 : addrArrOk = false
      · rw [alloc_ring_buffer_ev, if_neg h1, if_neg h2, if_pos h3]
        exact ⟨by decide, rfl⟩
      · rw [alloc_ring_buffer_ev, if_neg h1, if_neg h2, if_neg h3] at hfail ⊢
        cases hj : firstDataFail dataOk n with
        | none =>
          rw [hj] at hfail
          cases hfail
        | some j =>
          refine ⟨?_, rfl⟩
          show (allocsOf ((([.alloc .descRing, .alloc .bufPtrArray,
                .alloc .addrArray]
              ++ ((List.range j).map fun i => AllocEvent.alloc (.dataBuf i)))
              ++ ((List.range j).reverse.map fun i =>
                    AllocEvent.free (.dataBuf i)))
              ++ [.free .addrArray, .free .bufPtrArray,
                  .free .descRing])).Perm
            (freesOf ((([.alloc .descRing, .alloc .bufPtrArray,
                .alloc .addrArray]
              ++ ((List.range j).map fun i => AllocEvent.alloc (.dataBuf i)))
              ++ ((List.range j).reverse.map fun i =>
                    AllocEvent.free (.dataBuf i)))
              ++ [.free .addrArray, .free .bufPtrArray, .free .descRing]))
          rw [allocsOf_append, allocsOf_append, allocsOf_append,
            freesOf_append, freesOf_append, freesOf_append,
            allocsOf_alloc_map, allocsOf_free_map, freesOf_alloc_map,
            freesOf_free_map]
          show ((([Resource.descRing, .bufPtrArray, .addrArray]
              ++ (List.range j).map Resource.dataBuf)
              ++ ([] : List Resource)) ++ ([] : List Resource)).Perm
            (((([] : List Resource) ++ ([] : List Resource))
              ++ (List.range j).reverse.map Resource.dataBuf)
              ++ [Resource.addrArray, .bufPtrArray, .descRing])
          rw [List.map_reverse]
          simp only [List.append_nil, List.nil_append]
          exact List.Perm.trans List.perm_append_comm
            (List.Perm.append (List.reverse_perm _).symm (by decide))

/-- Witness for C7 at a concrete input: on a capacity-4 construction whose
third data-buffer allocation fails (buffers 0 and 1 succeed), the call
fails, frees exactly what it allocated, and leaves the ring unusable. -/
theorem c7_alloc_rollback_witness :
    (alloc_ring_buffer_ev true true true (fun i => decide (i < 2)) 4).ok =
      false ∧
    (allocsOf
        (alloc_ring_buffer_ev true true true (fun i => decide (i < 2))
          4).events).Perm
      (freesOf
        (alloc_ring_buffer_ev true true true (fun i => decide (i < 2))
          4).events) ∧
    (alloc_ring_buffer_ev true true true (fun i => decide (i < 2))
      4).ringReady = false :=
  ⟨by decide,
    c7_alloc_rollback true true true (fun i => decide (i < 2)) 4 (by decide)⟩

end DmaExample
